import Mathlib

/-!
Shallow embedding of the aggregate service-registry controller
(`pilot/pkg/serviceregistry/aggregate/controller.go`).

Modelling conventions:
* A Go map is `Option (List (key × value))`: `none` is a nil map, `some l`
  an allocated map whose entries are `l` (lookup takes the first entry with
  a matching key; insertion replaces in place).  Writing into a nil map is
  a runtime panic, modelled by `Except Unit` with `.error ()` as the panic.
* A `*multierror.Error` is `Option (List String)`; `none` is the nil error.
* A member registry (`serviceregistry.Instance`) is a record of the
  responses its methods give during the query under consideration.
* `DeepCopy` on a pure value is the value itself; the aliasing consequences
  of copying are modelled separately with an explicit heap (see `Heap`).
-/

namespace Aggregate

instance {ε α : Type} [DecidableEq ε] [DecidableEq α] : DecidableEq (Except ε α) := fun a b =>
  match a, b with
  | .error e1, .error e2 => decidable_of_iff (e1 = e2) (by simp)
  | .error _, .ok _ => isFalse (by simp)
  | .ok _, .error _ => isFalse (by simp)
  | .ok a1, .ok a2 => decidable_of_iff (a1 = a2) (by simp)

/-- Lookup in an allocated Go map, modelled as an association list. -/
def mapLookup {α : Type} : List (String × α) → String → Option α
  | [], _ => none
  | (k2, v) :: rest, k => if k2 = k then some v else mapLookup rest k

/-- Insert-or-replace in an allocated Go map. -/
def mapInsert {α : Type} : List (String × α) → String → α → List (String × α)
  | [], k, v => [(k, v)]
  | (k2, v2) :: rest, k, v =>
      if k2 = k then (k2, v) :: rest else (k2, v2) :: mapInsert rest k v

/-- Go `m[k] = v`: panics (`.error ()`) when the map is nil. -/
def goMapSet {α : Type} :
    Option (List (String × α)) → String → α → Except Unit (List (String × α))
  | none, _, _ => .error ()
  | some m, k, v => .ok (mapInsert m k v)

/-- Go `m[k]` read, yielding the value type's zero value for a missing key. -/
def goMapGet {α : Type} (m : List (String × α)) (k : String) (zero : α) : α :=
  (mapLookup m k).getD zero

/-- The fields of `model.ServiceAttributes` used by the controller. -/
structure ServiceAttributes where
  clusterExternalAddresses : Option (List (String × List String))
  clusterExternalPorts : Option (List (String × List (Nat × Nat)))
  deriving DecidableEq, Repr

/-- The fields of `model.Service` used by the controller. -/
structure Service where
  hostname : String
  address : String
  clusterVIPs : Option (List (String × String))
  attributes : ServiceAttributes
  deriving DecidableEq, Repr

def emptyService : Service :=
  { hostname := "", address := "", clusterVIPs := none,
    attributes := { clusterExternalAddresses := none, clusterExternalPorts := none } }

/-- A `model.ServiceInstance`; its contents are opaque to the controller,
which only concatenates, so we model it by a tag. -/
structure ServiceInstance where
  tag : Nat
  deriving DecidableEq, Repr

/-- A `labels.Collection`, opaque to the controller. -/
abbrev LabelsCollection := List (List (String × String))

/-- A member registry (`serviceregistry.Instance`): its cluster identifier
and the responses its discovery methods give. -/
structure Registry where
  cluster : String
  services : Except String (List Service)
  getService : String → Except String (Option Service)
  instancesByPort : Service → Nat → LabelsCollection → Except String (List ServiceInstance)
  appendServiceHandler : Except String Unit
  appendInstanceHandler : Except String Unit

/-- The aggregate `Controller`: the member sequence plus the cached count of
cluster-scoped members. -/
structure Controller where
  numK8SRegistries : Nat
  registries : List Registry

/-- The recount loop shared by `AddRegistry` and `DeleteRegistry`: the number
of members whose cluster identifier is non-empty. -/
def countK8SClusters : List Registry → Nat
  | [] => 0
  | r :: rest => (if r.cluster ≠ "" then 1 else 0) + countK8SClusters rest

def NewController : Controller := { numK8SRegistries := 0, registries := [] }

/-- `Controller.AddRegistry`: append, then recompute the cluster-scoped count
by a full scan. -/
def AddRegistry (c : Controller) (r : Registry) : Controller :=
  let rs := c.registries ++ [r]
  { numK8SRegistries := countK8SClusters rs, registries := rs }

/-- `Controller.GetRegistryIndex`: index of the first member with the given
cluster identifier (`none` models the `(0, false)` not-found return). -/
def GetRegistryIndex : List Registry → String → Option Nat
  | [], _ => none
  | r :: rest, clusterID =>
      if r.cluster = clusterID then some 0
      else (GetRegistryIndex rest clusterID).map (· + 1)

/-- `Controller.DeleteRegistry`: remove the member at the found index and
recompute the cluster-scoped count; a miss (or an empty set) is a no-op. -/
def DeleteRegistry (c : Controller) (clusterID : String) : Controller :=
  if c.registries.length = 0 then c
  else
    match GetRegistryIndex c.registries clusterID with
    | none => c
    | some i =>
        let rs := c.registries.take i ++ c.registries.drop (i + 1)
        { numK8SRegistries := countK8SClusters rs, registries := rs }

/-- `multierror.Append` on the aggregated-error model. -/
def multiAppend (errs : Option (List String)) (e : String) : Option (List String) :=
  some (errs.getD [] ++ [e])

/-- One merge window of `Services`/`GetService` (controller.go lines 184-193
and 246-255): when the source service's ClusterExternalAddresses (resp.
ClusterExternalPorts) map is non-nil, copy its entry for the cluster into the
canonical copy's map; then set the canonical copy's ClusterVIPs entry for the
cluster to the source service's address.  Each write panics when the canonical
copy's map is nil (the guards test only the source maps). -/
def mergeOne (cl : String) (s sp : Service) : Except Unit Service := do
  let sp ←
    match s.attributes.clusterExternalAddresses with
    | none => Except.ok sp
    | some m => do
        let cea ← goMapSet sp.attributes.clusterExternalAddresses cl (goMapGet m cl [])
        Except.ok { sp with attributes := { sp.attributes with clusterExternalAddresses := some cea } }
  let sp ←
    match s.attributes.clusterExternalPorts with
    | none => Except.ok sp
    | some m => do
        let cep ← goMapSet sp.attributes.clusterExternalPorts cl (goMapGet m cl [])
        Except.ok { sp with attributes := { sp.attributes with clusterExternalPorts := some cep } }
  let vips ← goMapSet sp.clusterVIPs cl s.address
  Except.ok { sp with clusterVIPs := some vips }

/-- An element of the in-construction `services` output slice of `Services`:
either a service appended directly from a non-cluster-scoped registry, or a
reference to the canonical copy for a hostname (Go appends the pointer that
`smap` also holds, so later merges mutate the listed element too). -/
inductive SvcEntry where
  | direct (s : Service)
  | canon (hostname : String)
  deriving DecidableEq, Repr

structure MergeState where
  smap : List (String × Service)
  entries : List SvcEntry
  errs : Option (List String)
  deriving Repr

/-- The inner loop body of the `Services` merge pass: first sighting of a
hostname deep-copies the service into `smap` and appends it to the output,
then the merge window runs against the canonical copy. -/
def mergeSvc (cl : String) (st : MergeState) (s : Service) : Except Unit MergeState :=
  match mapLookup st.smap s.hostname with
  | none => do
      let sp' ← mergeOne cl s s
      Except.ok { smap := mapInsert st.smap s.hostname sp',
                  entries := st.entries ++ [SvcEntry.canon s.hostname],
                  errs := st.errs }
  | some sp => do
      let sp' ← mergeOne cl s sp
      Except.ok { st with smap := mapInsert st.smap s.hostname sp' }

/-- The per-registry body of the `Services` merge pass: an erroring member is
collected and skipped; a non-cluster-scoped member's services are appended
directly; a cluster-scoped member's services go through `mergeSvc`. -/
def mergeReg (st : MergeState) (r : Registry) : Except Unit MergeState :=
  match r.services with
  | .error e => Except.ok { st with errs := multiAppend st.errs e }
  | .ok svcs =>
      if r.cluster = "" then
        Except.ok { st with entries := st.entries ++ svcs.map SvcEntry.direct }
      else
        List.foldlM (mergeSvc r.cluster) st svcs

/-- Read an output element back: canonical references resolve through `smap`. -/
def renderEntry (smap : List (String × Service)) : SvcEntry → Service
  | .direct s => s
  | .canon h => (mapLookup smap h).getD emptyService

/-- The fast path of `Services` (at most one cluster-scoped member): plain
concatenation, erroring members collected and skipped. -/
def fastServices : List Registry → List Service × Option (List String) →
    List Service × Option (List String)
  | [], acc => acc
  | r :: rest, (svcs, errs) =>
      match r.services with
      | .error e => fastServices rest (svcs, multiAppend errs e)
      | .ok s => fastServices rest (svcs ++ s, errs)

/-- `Controller.Services`: fast concatenation when the cached cluster-scoped
count is at most 1, otherwise the hostname-keyed merge pass.  `.error ()` is
a runtime panic during the merge. -/
def Services (c : Controller) : Except Unit (List Service × Option (List String)) :=
  if c.numK8SRegistries ≤ 1 then
    Except.ok (fastServices c.registries ([], none))
  else
    match List.foldlM mergeReg { smap := [], entries := [], errs := none } c.registries with
    | .error _ => .error ()
    | .ok st => Except.ok (st.entries.map (renderEntry st.smap), st.errs)

/-- The fast path of `GetService` (at most one cluster-scoped member): the
first non-nil result is returned with a nil error. -/
def fastGetService (h : String) : List Registry → Option (List String) →
    Option Service × Option (List String)
  | [], errs => (none, errs)
  | r :: rest, errs =>
      match r.getService h with
      | .error e => fastGetService h rest (multiAppend errs e)
      | .ok none => fastGetService h rest errs
      | .ok (some s) => (some s, none)

/-- The merge path of `GetService`: a non-cluster-scoped hit returns
immediately with a nil error; the first cluster-scoped hit becomes the deep
copy `out` (with no merge window applied to it); every later cluster-scoped
hit runs the merge window against `out`. -/
def mergeGetService (h : String) : List Registry → Option Service → Option (List String) →
    Except Unit (Option Service × Option (List String))
  | [], out, errs => Except.ok (out, errs)
  | r :: rest, out, errs =>
      match r.getService h with
      | .error e => mergeGetService h rest out (multiAppend errs e)
      | .ok none => mergeGetService h rest out errs
      | .ok (some s) =>
          if r.cluster = "" then Except.ok (some s, none)
          else
            match out with
            | none => mergeGetService h rest (some s) errs
            | some o => do
                let o' ← mergeOne r.cluster s o
                mergeGetService h rest (some o') errs

/-- `Controller.GetService`. -/
def GetService (c : Controller) (h : String) :
    Except Unit (Option Service × Option (List String)) :=
  if c.numK8SRegistries ≤ 1 then
    Except.ok (fastGetService h c.registries none)
  else
    mergeGetService h c.registries none none

/-- `serviceregistry.Kubernetes`, the default ambiguous cluster identifier. -/
def kubernetesProviderID : String := "Kubernetes"

/-- `skipSearchingRegistryForProxy` (controller.go lines 316-331). -/
def skipSearchingRegistryForProxy
    (nodeClusterID registryClusterID selfClusterID : String) : Bool :=
  let registryClusterID :=
    if registryClusterID = kubernetesProviderID then selfClusterID else registryClusterID
  if registryClusterID = "" || nodeClusterID = "" then false
  else registryClusterID ≠ nodeClusterID

/-- The scan loop of `Controller.InstancesByPort`: errors are collected,
non-empty results concatenated. -/
def instancesLoop (svc : Service) (port : Nat) (lbls : LabelsCollection) :
    List Registry → List ServiceInstance → Option (List String) →
    List ServiceInstance × Option (List String)
  | [], instances, errs => (instances, errs)
  | r :: rest, instances, errs =>
      match r.instancesByPort svc port lbls with
      | .error e => instancesLoop svc port lbls rest instances (multiAppend errs e)
      | .ok tmp =>
          if tmp.length > 0 then instancesLoop svc port lbls rest (instances ++ tmp) errs
          else instancesLoop svc port lbls rest instances errs

/-- `Controller.InstancesByPort`: after the scan, any produced instance
discards the aggregated error. -/
def InstancesByPort (c : Controller) (svc : Service) (port : Nat)
    (lbls : LabelsCollection) : List ServiceInstance × Option (List String) :=
  let res := instancesLoop svc port lbls c.registries [] none
  if res.1.length > 0 then (res.1, none) else res

/-- The handler-registration loop shared by `AppendServiceHandler` and
`AppendInstanceHandler`, instrumented with the indices of the members that
were contacted and of those with which the handler was registered: the first
error aborts the scan and is returned verbatim. -/
def appendHandlersLoop : List (Except String Unit) → Nat →
    List Nat × List Nat × Option String
  | [], _ => ([], [], none)
  | result :: rest, i =>
      match result with
      | .error e => ([i], [], some e)
      | .ok _ =>
          let acc := appendHandlersLoop rest (i + 1)
          (i :: acc.1, i :: acc.2.1, acc.2.2)

/-- `Controller.AppendServiceHandler`, returning (contacted member indices,
registered member indices, returned error). -/
def AppendServiceHandler (c : Controller) : List Nat × List Nat × Option String :=
  appendHandlersLoop (c.registries.map (·.appendServiceHandler)) 0

/-- `Controller.AppendInstanceHandler`, instrumented the same way. -/
def AppendInstanceHandler (c : Controller) : List Nat × List Nat × Option String :=
  appendHandlersLoop (c.registries.map (·.appendInstanceHandler)) 0

/-- A plain member registry used in concrete instances. -/
def sampleRegistry (cl : String) : Registry :=
  { cluster := cl
    services := .ok []
    getService := fun _ => .ok none
    instancesByPort := fun _ _ _ => .ok []
    appendServiceHandler := .ok ()
    appendInstanceHandler := .ok () }

/-- A member registry whose handler registrations fail. -/
def failingHandlerRegistry (cl : String) (e : String) : Registry :=
  { sampleRegistry cl with
    appendServiceHandler := .error e
    appendInstanceHandler := .error e }

theorem mapLookup_mapInsert_self {α : Type} (m : List (String × α)) (k : String) (v : α) :
    mapLookup (mapInsert m k v) k = some v := by
  induction m with
  | nil => simp [mapInsert, mapLookup]
  | cons p rest ih =>
      obtain ⟨k2, v2⟩ := p
      by_cases h : k2 = k
      · simp [mapInsert, mapLookup, h]
      · simp [mapInsert, mapLookup, h, ih]

theorem mapLookup_mapInsert_ne {α : Type} (m : List (String × α)) (k k' : String) (v : α)
    (h : k' ≠ k) : mapLookup (mapInsert m k v) k' = mapLookup m k' := by
  have h' : ¬k = k' := fun hh => h hh.symm
  induction m with
  | nil => simp [mapInsert, mapLookup, h']
  | cons p rest ih =>
      obtain ⟨k2, v2⟩ := p
      by_cases h2 : k2 = k
      · subst h2
        simp [mapInsert, mapLookup, h']
      · simp [mapInsert, mapLookup, h2, ih]

theorem appendHandlersLoop_all_ok (l : List (Except String Unit)) (i : Nat)
    (h : ∀ x ∈ l, x = Except.ok ()) : (appendHandlersLoop l i).2.2 = none := by
  induction l generalizing i with
  | nil => rfl
  | cons x rest ih =>
      have hx := h x (by simp)
      simp only [appendHandlersLoop, hx]
      exact ih (i + 1) (fun y hy => h y (by simp [hy]))

/-- The concatenation, in member order, of the successful members' service
lists (an erroring member contributes nothing). -/
def okServices : List Registry → List Service
  | [] => []
  | r :: rest =>
      (match r.services with | .ok l => l | .error _ => []) ++ okServices rest

/-- The errors collected from the members' `Services` responses, threaded
through `multiAppend` in member order. -/
def collectSvcErrs : List Registry → Option (List String) → Option (List String)
  | [], errs => errs
  | r :: rest, errs =>
      match r.services with
      | .error e => collectSvcErrs rest (multiAppend errs e)
      | .ok _ => collectSvcErrs rest errs

theorem fastServices_spec (rs : List Registry) (acc : List Service)
    (errs : Option (List String)) :
    fastServices rs (acc, errs) = (acc ++ okServices rs, collectSvcErrs rs errs) := by
  induction rs generalizing acc errs with
  | nil => simp [fastServices, okServices, collectSvcErrs]
  | cons r rest ih =>
      cases h : r.services with
      | error e => simp [fastServices, okServices, collectSvcErrs, h, ih]
      | ok l => simp [fastServices, okServices, collectSvcErrs, h, ih]

theorem collectSvcErrs_no_errors (rs : List Registry) (errs : Option (List String))
    (h : ∀ r ∈ rs, ∃ l, r.services = Except.ok l) :
    collectSvcErrs rs errs = errs := by
  induction rs generalizing errs with
  | nil => rfl
  | cons r rest ih =>
      obtain ⟨l, hl⟩ := h r (by simp)
      simp only [collectSvcErrs, hl]
      exact ih errs (fun r' hr' => h r' (by simp [hr']))

/-- The concatenation, in member order, of the successful members' instance
lists for one `InstancesByPort` query. -/
def okInstances (svc : Service) (port : Nat) (lbls : LabelsCollection) :
    List Registry → List ServiceInstance
  | [] => []
  | r :: rest =>
      (match r.instancesByPort svc port lbls with | .ok l => l | .error _ => []) ++
        okInstances svc port lbls rest

/-- Whether any member's `InstancesByPort` response is an error. -/
def anyInstancesError (svc : Service) (port : Nat) (lbls : LabelsCollection) :
    List Registry → Bool
  | [] => false
  | r :: rest =>
      (match r.instancesByPort svc port lbls with | .error _ => true | .ok _ => false) ||
        anyInstancesError svc port lbls rest

/-- The errors collected from the members' `InstancesByPort` responses. -/
def collectInstErrs (svc : Service) (port : Nat) (lbls : LabelsCollection) :
    List Registry → Option (List String) → Option (List String)
  | [], errs => errs
  | r :: rest, errs =>
      match r.instancesByPort svc port lbls with
      | .error e => collectInstErrs svc port lbls rest (multiAppend errs e)
      | .ok _ => collectInstErrs svc port lbls rest errs

theorem instancesLoop_spec (svc : Service) (port : Nat) (lbls : LabelsCollection)
    (rs : List Registry) (acc : List ServiceInstance) (errs : Option (List String)) :
    instancesLoop svc port lbls rs acc errs =
      (acc ++ okInstances svc port lbls rs, collectInstErrs svc port lbls rs errs) := by
  induction rs generalizing acc errs with
  | nil => simp [instancesLoop, okInstances, collectInstErrs]
  | cons r rest ih =>
      cases h : r.instancesByPort svc port lbls with
      | error e => simp [instancesLoop, okInstances, collectInstErrs, h, ih]
      | ok tmp =>
          by_cases htmp : tmp.length > 0
          · simp [instancesLoop, okInstances, collectInstErrs, h, htmp, ih]
          · have : tmp = [] := List.eq_nil_of_length_eq_zero (by omega)
            subst this
            simp [instancesLoop, okInstances, collectInstErrs, h, ih]

theorem collectInstErrs_isSome (svc : Service) (port : Nat) (lbls : LabelsCollection)
    (rs : List Registry) (errs : Option (List String)) :
    (collectInstErrs svc port lbls rs errs).isSome =
      (errs.isSome || anyInstancesError svc port lbls rs) := by
  induction rs generalizing errs with
  | nil => simp [collectInstErrs, anyInstancesError]
  | cons r rest ih =>
      cases h : r.instancesByPort svc port lbls with
      | error e => simp [collectInstErrs, anyInstancesError, h, ih, multiAppend]
      | ok l => simp [collectInstErrs, anyInstancesError, h, ih]

/-- C4: `InstancesByPort` concatenates all members' successful results in
member order, and returns a non-nil aggregated error exactly when no member
produced any instance and at least one member failed; in particular, with one
failing member and one succeeding non-empty member it returns the succeeding
member's instances and a nil error. -/
theorem C4_instances_by_port_masking (c : Controller) (svc : Service) (port : Nat)
    (lbls : LabelsCollection) :
    (InstancesByPort c svc port lbls).1 = okInstances svc port lbls c.registries ∧
    ((InstancesByPort c svc port lbls).2 ≠ none ↔
      (okInstances svc port lbls c.registries = [] ∧
       anyInstancesError svc port lbls c.registries = true)) := by
  have hloop := instancesLoop_spec svc port lbls c.registries [] none
  have hsome := collectInstErrs_isSome svc port lbls c.registries none
  simp only [InstancesByPort, hloop, List.nil_append]
  by_cases hlen : (okInstances svc port lbls c.registries).length > 0
  · have hne : okInstances svc port lbls c.registries ≠ [] := by
      intro hnil; rw [hnil] at hlen; simp at hlen
    simp [hlen, hne]
  · have hnil : okInstances svc port lbls c.registries = [] :=
      List.eq_nil_of_length_eq_zero (by omega)
    rw [hnil]
    simp only [List.length_nil, gt_iff_lt, lt_irrefl, if_false, hnil, true_and, ne_eq]
    have hs : (collectInstErrs svc port lbls c.registries none).isSome =
        anyInstancesError svc port lbls c.registries := by simpa using hsome
    cases hcoll : collectInstErrs svc port lbls c.registries none with
    | none =>
        simp only [hcoll, Option.isSome_none] at hs
        simp [← hs]
    | some l =>
        simp only [hcoll, Option.isSome_some] at hs
        simp [← hs]

/-- C9: with at most one cluster-scoped member and no member errors,
`Services` returns exactly the concatenation of the members' service lists in
member order, untouched (no deduplication, no merging, no cluster identifier
assignment), with a nil error. -/
theorem C9_services_fast_path (c : Controller)
    (hc : c.numK8SRegistries = countK8SClusters c.registries)
    (hle : countK8SClusters c.registries ≤ 1)
    (hok : ∀ r ∈ c.registries, ∃ l, r.services = Except.ok l) :
    Services c = Except.ok (okServices c.registries, none) := by
  have hcond : c.numK8SRegistries ≤ 1 := by omega
  simp only [Services, hcond, if_true, fastServices_spec, List.nil_append,
    collectSvcErrs_no_errors c.registries none hok]

/-- Witness for C9: one cluster-scoped and one non-cluster-scoped member, both
succeeding. -/
theorem C9_services_fast_path_witness :
    Services
        { numK8SRegistries := 1,
          registries :=
            [{ sampleRegistry "" with
                services := Except.ok [{ emptyService with hostname := "a" }] },
             { sampleRegistry "c1" with
                services := Except.ok [{ emptyService with hostname := "b" }] }] } =
      Except.ok
        ([{ emptyService with hostname := "a" }, { emptyService with hostname := "b" }],
          none) := by
  have h := C9_services_fast_path
    { numK8SRegistries := 1,
      registries :=
        [{ sampleRegistry "" with
            services := Except.ok [{ emptyService with hostname := "a" }] },
         { sampleRegistry "c1" with
            services := Except.ok [{ emptyService with hostname := "b" }] }] }
    rfl (by decide)
    (by
      intro r hr
      simp only [List.mem_cons, List.not_mem_nil, or_false] at hr
      rcases hr with h | h <;> exact ⟨_, by rw [h]⟩)
  simpa [okServices, sampleRegistry] using h

/-- The first member registry with the given cluster identifier. -/
def findReg : List Registry → String → Option Registry
  | [], _ => none
  | r :: rest, cl => if r.cluster = cl then some r else findReg rest cl

theorem findReg_eq_none (rs : List Registry) (cl : String)
    (h : ∀ r ∈ rs, r.cluster ≠ cl) : findReg rs cl = none := by
  induction rs with
  | nil => rfl
  | cons r rest ih =>
      simp only [findReg, h r (by simp), if_false]
      exact ih (fun r' hr' => h r' (by simp [hr']))

theorem exbind_ok {α β : Type} (a : α) (f : α → Except Unit β) :
    (Except.ok a >>= f : Except Unit β) = f a := rfl

/-- The canonical copy with its ClusterVIPs map replaced. -/
def withVIPs (sp : Service) (m : List (String × String)) : Service :=
  { sp with clusterVIPs := some m }

/-- The merge window on a source service with nil attribute maps only inserts
the cluster's VIP entry into the canonical copy. -/
theorem mergeOne_plain (cl : String) (s sp : Service) (m : List (String × String))
    (hcea : s.attributes.clusterExternalAddresses = none)
    (hcep : s.attributes.clusterExternalPorts = none)
    (hv : sp.clusterVIPs = some m) :
    mergeOne cl s sp = .ok (withVIPs sp (mapInsert m cl s.address)) := by
  simp [mergeOne, hcea, hcep, hv, goMapSet, exbind_ok, withVIPs]

/-- One `mergeSvc` step on a state whose map holds exactly the canonical copy
for the service's hostname. -/
theorem mergeSvc_single (cl : String) (st : MergeState) (s sp : Service) (hn : String)
    (m : List (String × String))
    (hsmap : st.smap = [(hn, sp)])
    (hhost : s.hostname = hn)
    (hcea : s.attributes.clusterExternalAddresses = none)
    (hcep : s.attributes.clusterExternalPorts = none)
    (hv : sp.clusterVIPs = some m) :
    mergeSvc cl st s =
      .ok { smap := [(hn, withVIPs sp (mapInsert m cl s.address))],
            entries := st.entries, errs := st.errs } := by
  simp [mergeSvc, hsmap, hhost, mapLookup, mergeOne_plain cl s sp m hcea hcep hv, mapInsert,
    exbind_ok]

/-- Folding the merge pass over cluster-scoped members that all report one
service with the same hostname extends the canonical copy's ClusterVIPs map
with one entry per member and touches nothing else. -/
theorem mergeReg_fold_single_host (hn : String) (svcF : Registry → Service) :
    ∀ (rest : List Registry) (st : MergeState) (sp : Service) (m : List (String × String)),
    (∀ r ∈ rest, r.cluster ≠ "") →
    ((rest.map (fun r => r.cluster)).Nodup) →
    (∀ r ∈ rest, r.services = .ok [svcF r]) →
    (∀ r ∈ rest, (svcF r).hostname = hn) →
    (∀ r ∈ rest, (svcF r).attributes.clusterExternalAddresses = none) →
    (∀ r ∈ rest, (svcF r).attributes.clusterExternalPorts = none) →
    st.smap = [(hn, sp)] →
    sp.clusterVIPs = some m →
    ∃ m', List.foldlM mergeReg st rest =
        .ok { smap := [(hn, withVIPs sp m')], entries := st.entries, errs := st.errs } ∧
      ∀ cl, mapLookup m' cl =
        (match findReg rest cl with
         | some r => some (svcF r).address
         | none => mapLookup m cl) := by
  intro rest
  induction rest with
  | nil =>
      intro st sp m _ _ _ _ _ _ hsmap hv
      refine ⟨m, ?_, fun cl => by simp [findReg]⟩
      obtain ⟨smap₀, entries₀, errs₀⟩ := st
      simp only at hsmap
      subst hsmap
      have hsp : withVIPs sp m = sp := by
        simp only [withVIPs]
        rw [← hv]
      simp [List.foldlM, hsp, pure, Except.pure]
  | cons r rest' ih =>
      intro st sp m hcl hnodup hsvc hhost hcea hcep hsmap hv
      have hr1 : r.cluster ≠ "" := hcl r (by simp)
      have hstep := mergeSvc_single r.cluster st (svcF r) sp hn m hsmap
        (hhost r (by simp)) (hcea r (by simp)) (hcep r (by simp)) hv
      have hreg : mergeReg st r =
          .ok { smap := [(hn, withVIPs sp (mapInsert m r.cluster (svcF r).address))],
                entries := st.entries, errs := st.errs } := by
        simp [mergeReg, hsvc r (by simp), hr1, List.foldlM, hstep, exbind_ok, pure, Except.pure]
      have hnodup' : (rest'.map (fun r => r.cluster)).Nodup :=
        (List.nodup_cons.mp hnodup).2
      have hnotmem : r.cluster ∉ rest'.map (fun r => r.cluster) :=
        (List.nodup_cons.mp hnodup).1
      obtain ⟨m', hfold, hlook⟩ := ih
        { smap := [(hn, withVIPs sp (mapInsert m r.cluster (svcF r).address))],
          entries := st.entries, errs := st.errs }
        (withVIPs sp (mapInsert m r.cluster (svcF r).address))
        (mapInsert m r.cluster (svcF r).address)
        (fun r' hr' => hcl r' (by simp [hr']))
        hnodup'
        (fun r' hr' => hsvc r' (by simp [hr']))
        (fun r' hr' => hhost r' (by simp [hr']))
        (fun r' hr' => hcea r' (by simp [hr']))
        (fun r' hr' => hcep r' (by simp [hr']))
        rfl rfl
      refine ⟨m', ?_, ?_⟩
      · rw [List.foldlM_cons, hreg, exbind_ok]
        simpa [withVIPs] using hfold
      · intro cl
        by_cases hc : r.cluster = cl
        · subst hc
          have hrest : findReg rest' r.cluster = none := by
            apply findReg_eq_none
            intro r' hr' hh
            exact hnotmem (List.mem_map.mpr ⟨r', hr', hh⟩)
          rw [hlook r.cluster]
          simp [findReg, hrest, mapLookup_mapInsert_self]
        · rw [hlook cl]
          cases hf : findReg rest' cl with
          | some r' => simp [findReg, hc, hf]
          | none =>
              simp [findReg, hc, hf,
                mapLookup_mapInsert_ne m r.cluster cl (svcF r).address
                  (fun hh => hc hh.symm)]

/-- C1: with more than one cluster-scoped member, each reporting one service
with the same hostname (carrying an empty allocated ClusterVIPs map and nil
attribute maps) under pairwise distinct non-empty cluster identifiers,
`Services` returns exactly one record for that hostname whose ClusterVIPs map
holds exactly one entry per member, mapping the member's cluster identifier to
that member's service's primary address (the first-sighted member's entry
included). -/
theorem C1_services_merge_cluster_vips
    (c : Controller) (hn : String) (svcF : Registry → Service)
    (hnum : c.numK8SRegistries = countK8SClusters c.registries)
    (hgt : 1 < countK8SClusters c.registries)
    (hcl : ∀ r ∈ c.registries, r.cluster ≠ "")
    (hnodup : (c.registries.map (fun r => r.cluster)).Nodup)
    (hsvc : ∀ r ∈ c.registries, r.services = Except.ok [svcF r])
    (hhost : ∀ r ∈ c.registries, (svcF r).hostname = hn)
    (hvips : ∀ r ∈ c.registries, (svcF r).clusterVIPs = some [])
    (hcea : ∀ r ∈ c.registries, (svcF r).attributes.clusterExternalAddresses = none)
    (hcep : ∀ r ∈ c.registries, (svcF r).attributes.clusterExternalPorts = none) :
    ∃ sp m, Services c = Except.ok ([sp], none) ∧ sp.hostname = hn ∧
      sp.clusterVIPs = some m ∧
      ∀ cl, mapLookup m cl = (findReg c.registries cl).map (fun r => (svcF r).address) := by
  have hcond : ¬c.numK8SRegistries ≤ 1 := by omega
  cases hrs : c.registries with
  | nil =>
      rw [hrs] at hgt
      simp [countK8SClusters] at hgt
  | cons r₁ rest =>
      have hmem1 : r₁ ∈ c.registries := by rw [hrs]; simp
      have hmem : ∀ r ∈ rest, r ∈ c.registries := by
        intro r hr; rw [hrs]; simp [hr]
      have hnodup' := hnodup
      rw [hrs] at hnodup'
      simp only [List.map_cons] at hnodup'
      have hreg1 : mergeReg { smap := [], entries := [], errs := none } r₁ =
          .ok { smap := [(hn, withVIPs (svcF r₁) [(r₁.cluster, (svcF r₁).address)])],
                entries := [SvcEntry.canon hn], errs := none } := by
        simp [mergeReg, hsvc r₁ hmem1, hcl r₁ hmem1, List.foldlM, mergeSvc, mapLookup,
          mergeOne_plain r₁.cluster (svcF r₁) (svcF r₁) [] (hcea r₁ hmem1) (hcep r₁ hmem1)
            (hvips r₁ hmem1),
          mapInsert, hhost r₁ hmem1, exbind_ok, pure, Except.pure]
      obtain ⟨m', hfold, hlook⟩ := mergeReg_fold_single_host hn svcF rest
        { smap := [(hn, withVIPs (svcF r₁) [(r₁.cluster, (svcF r₁).address)])],
          entries := [SvcEntry.canon hn], errs := none }
        (withVIPs (svcF r₁) [(r₁.cluster, (svcF r₁).address)])
        [(r₁.cluster, (svcF r₁).address)]
        (fun r hr => hcl r (hmem r hr))
        (List.nodup_cons.mp hnodup').2
        (fun r hr => hsvc r (hmem r hr))
        (fun r hr => hhost r (hmem r hr))
        (fun r hr => hcea r (hmem r hr))
        (fun r hr => hcep r (hmem r hr))
        rfl rfl
      refine ⟨withVIPs (withVIPs (svcF r₁) [(r₁.cluster, (svcF r₁).address)]) m', m',
        ?_, ?_, rfl, ?_⟩
      · unfold Services
        rw [if_neg hcond, hrs, List.foldlM_cons, hreg1, exbind_ok, hfold]
        simp [renderEntry, mapLookup]
      · simp [withVIPs, hhost r₁ hmem1]
      · intro cl
        rw [hlook cl]
        by_cases hc : r₁.cluster = cl
        · subst hc
          have hrestnone : findReg rest r₁.cluster = none := by
            apply findReg_eq_none
            intro r' hr' hh
            exact (List.nodup_cons.mp hnodup').1 (List.mem_map.mpr ⟨r', hr', hh⟩)
          simp [findReg, hrestnone, mapLookup]
        · cases hf : findReg rest cl with
          | some r' => simp [findReg, hc, hf]
          | none =>
              have hc' : ¬r₁.cluster = cl := hc
              simp [findReg, hc, hf, mapLookup, hc']

/-- A cluster-scoped service of hostname "h" with an empty ClusterVIPs map. -/
def plainSvc (addr : String) : Service :=
  { hostname := "h", address := addr, clusterVIPs := some [],
    attributes := { clusterExternalAddresses := none, clusterExternalPorts := none } }

def regOfC1 : Registry := { sampleRegistry "c1" with services := .ok [plainSvc "10.0.0.1"] }

def regOfC2 : Registry := { sampleRegistry "c2" with services := .ok [plainSvc "10.0.0.2"] }

def twoClusterCtrl : Controller := { numK8SRegistries := 2, registries := [regOfC1, regOfC2] }

/-- Witness for C1: two cluster-scoped members. -/
theorem C1_services_merge_cluster_vips_witness :
    ∃ sp m, Services twoClusterCtrl = Except.ok ([sp], none) ∧ sp.hostname = "h" ∧
      sp.clusterVIPs = some m ∧
      ∀ cl, mapLookup m cl = (findReg twoClusterCtrl.registries cl).map
        (fun r => ((fun r => if r.cluster = "c1" then plainSvc "10.0.0.1" else plainSvc "10.0.0.2") r).address) :=
  C1_services_merge_cluster_vips twoClusterCtrl "h"
    (fun r => if r.cluster = "c1" then plainSvc "10.0.0.1" else plainSvc "10.0.0.2")
    (by decide) (by decide) (by decide) (by decide) (by decide) (by decide) (by decide)
    (by decide) (by decide)

theorem exbind_error {α β : Type} (e : Unit) (f : α → Except Unit β) :
    (Except.error e >>= f : Except Unit β) = .error e := rfl

/-- Accumulating the `GetService` merge over cluster-scoped members that all
return a service: one ClusterVIPs entry is inserted into the canonical copy
per member, and nothing else changes. -/
theorem mergeGetService_accum (hn : String) (svcGF : Registry → Service) :
    ∀ (rest : List Registry) (o : Service) (m : List (String × String))
      (errs : Option (List String)),
    (∀ r ∈ rest, r.cluster ≠ "") →
    ((rest.map (fun r => r.cluster)).Nodup) →
    (∀ r ∈ rest, r.getService hn = .ok (some (svcGF r))) →
    (∀ r ∈ rest, (svcGF r).attributes.clusterExternalAddresses = none) →
    (∀ r ∈ rest, (svcGF r).attributes.clusterExternalPorts = none) →
    o.clusterVIPs = some m →
    ∃ m', mergeGetService hn rest (some o) errs = .ok (some (withVIPs o m'), errs) ∧
      ∀ cl, mapLookup m' cl =
        (match findReg rest cl with
         | some r => some (svcGF r).address
         | none => mapLookup m cl) := by
  intro rest
  induction rest with
  | nil =>
      intro o m errs _ _ _ _ _ hv
      refine ⟨m, ?_, fun cl => by simp [findReg]⟩
      have hsp : withVIPs o m = o := by
        simp only [withVIPs]
        rw [← hv]
      simp [mergeGetService, hsp]
  | cons r rest' ih =>
      intro o m errs hcl hnodup hgs hcea hcep hv
      have hr1 : r.cluster ≠ "" := hcl r (by simp)
      have hnodup' : (rest'.map (fun r => r.cluster)).Nodup := (List.nodup_cons.mp hnodup).2
      have hnotmem : r.cluster ∉ rest'.map (fun r => r.cluster) := (List.nodup_cons.mp hnodup).1
      obtain ⟨m', hrec, hlook⟩ := ih (withVIPs o (mapInsert m r.cluster (svcGF r).address))
        (mapInsert m r.cluster (svcGF r).address) errs
        (fun r' hr' => hcl r' (by simp [hr']))
        hnodup'
        (fun r' hr' => hgs r' (by simp [hr']))
        (fun r' hr' => hcea r' (by simp [hr']))
        (fun r' hr' => hcep r' (by simp [hr']))
        rfl
      refine ⟨m', ?_, ?_⟩
      · simp only [mergeGetService, hgs r (by simp)]
        rw [if_neg hr1]
        rw [mergeOne_plain r.cluster (svcGF r) o m (hcea r (by simp)) (hcep r (by simp)) hv,
          exbind_ok]
        simpa [withVIPs] using hrec
      · intro cl
        by_cases hc : r.cluster = cl
        · subst hc
          have hrest : findReg rest' r.cluster = none := by
            apply findReg_eq_none
            intro r' hr' hh
            exact hnotmem (List.mem_map.mpr ⟨r', hr', hh⟩)
          rw [hlook r.cluster]
          simp [findReg, hrest, mapLookup_mapInsert_self]
        · rw [hlook cl]
          cases hf : findReg rest' cl with
          | some r' => simp [findReg, hc, hf]
          | none =>
              simp [findReg, hc, hf,
                mapLookup_mapInsert_ne m r.cluster cl (svcGF r).address
                  (fun hh => hc hh.symm)]

/-- C2 counterexample base: two cluster-scoped members answering `GetService`
for hostname "h" with fresh services. -/
def gsReg1 : Registry :=
  { sampleRegistry "c1" with getService := fun _ => .ok (some (plainSvc "10.0.0.1")) }

def gsReg2 : Registry :=
  { sampleRegistry "c2" with getService := fun _ => .ok (some (plainSvc "10.0.0.2")) }

def gsCtrl : Controller := { numK8SRegistries := 2, registries := [gsReg1, gsReg2] }

/-- C2 counterexample: in the two-cluster `GetService` merge of fresh services
the returned canonical copy's ClusterVIPs map has no entry for the first
encountered registry's cluster identifier "c1" (it holds only the "c2"
entry), refuting the claim that the first registry's entry is included. -/
theorem C2_counterexample :
    GetService gsCtrl "h" =
      Except.ok (some (withVIPs (plainSvc "10.0.0.1") [("c2", "10.0.0.2")]), none) ∧
    mapLookup [("c2", "10.0.0.2")] "c1" = none := by
  constructor
  · rfl
  · rfl

/-- C2 amended: in the `GetService` merge path, every cluster-scoped registry
after the first one with a non-nil result gets its ClusterVIPs entry set in
the canonical copy; the first-sighted registry's entry is not added — the
canonical copy is a plain deep copy of the first service, so with a first
service carrying an empty ClusterVIPs map, the returned map holds exactly the
subsequent registries' entries. -/
theorem C2_get_service_merge_amended
    (c : Controller) (hn : String) (svcGF : Registry → Service)
    (r₁ : Registry) (rest : List Registry)
    (hrs : c.registries = r₁ :: rest)
    (hnum : ¬c.numK8SRegistries ≤ 1)
    (hcl : ∀ r ∈ c.registries, r.cluster ≠ "")
    (hnodup : (c.registries.map (fun r => r.cluster)).Nodup)
    (hgs : ∀ r ∈ c.registries, r.getService hn = .ok (some (svcGF r)))
    (hvips1 : (svcGF r₁).clusterVIPs = some [])
    (hcea : ∀ r ∈ c.registries, (svcGF r).attributes.clusterExternalAddresses = none)
    (hcep : ∀ r ∈ c.registries, (svcGF r).attributes.clusterExternalPorts = none) :
    ∃ m, GetService c hn = .ok (some (withVIPs (svcGF r₁) m), none) ∧
      ∀ cl, mapLookup m cl = (findReg rest cl).map (fun r => (svcGF r).address) := by
  have hmem1 : r₁ ∈ c.registries := by rw [hrs]; simp
  have hmem : ∀ r ∈ rest, r ∈ c.registries := by
    intro r hr; rw [hrs]; simp [hr]
  have hnodup' : (rest.map (fun r => r.cluster)).Nodup := by
    rw [hrs] at hnodup
    simp only [List.map_cons] at hnodup
    exact (List.nodup_cons.mp hnodup).2
  obtain ⟨m', hrec, hlook⟩ := mergeGetService_accum hn svcGF rest (svcGF r₁) [] none
    (fun r hr => hcl r (hmem r hr))
    hnodup'
    (fun r hr => hgs r (hmem r hr))
    (fun r hr => hcea r (hmem r hr))
    (fun r hr => hcep r (hmem r hr))
    hvips1
  refine ⟨m', ?_, ?_⟩
  · unfold GetService
    rw [if_neg hnum, hrs]
    simp only [mergeGetService, hgs r₁ hmem1]
    rw [if_neg (hcl r₁ hmem1)]
    exact hrec
  · intro cl
    rw [hlook cl]
    cases hf : findReg rest cl with
    | some r' => simp
    | none => simp [mapLookup]

/-- Witness for C2 amended, at the counterexample configuration. -/
theorem C2_get_service_merge_amended_witness :
    ∃ m, GetService gsCtrl "h" =
        .ok (some (withVIPs ((fun r => if r.cluster = "c1" then plainSvc "10.0.0.1" else plainSvc "10.0.0.2") gsReg1) m), none) ∧
      ∀ cl, mapLookup m cl = (findReg [gsReg2] cl).map
        (fun r => ((fun r => if r.cluster = "c1" then plainSvc "10.0.0.1" else plainSvc "10.0.0.2") r).address) :=
  C2_get_service_merge_amended gsCtrl "h"
    (fun r => if r.cluster = "c1" then plainSvc "10.0.0.1" else plainSvc "10.0.0.2")
    gsReg1 [gsReg2] rfl (by decide) (by decide) (by decide) (by decide) (by decide)
    (by decide) (by decide)

theorem mergeSvc_errs (cl : String) (st : MergeState) (s : Service) (st' : MergeState)
    (h : mergeSvc cl st s = .ok st') : st'.errs = st.errs := by
  unfold mergeSvc at h
  cases hl : mapLookup st.smap s.hostname with
  | none =>
      simp only [hl] at h
      cases hm : mergeOne cl s s with
      | error e => rw [hm, exbind_error] at h; exact absurd h (by simp)
      | ok sp' => rw [hm, exbind_ok] at h; cases h; rfl
  | some sp =>
      simp only [hl] at h
      cases hm : mergeOne cl s sp with
      | error e => rw [hm, exbind_error] at h; exact absurd h (by simp)
      | ok sp' => rw [hm, exbind_ok] at h; cases h; rfl

theorem foldlM_mergeSvc_errs (cl : String) (svcs : List Service) :
    ∀ (st st' : MergeState), List.foldlM (mergeSvc cl) st svcs = .ok st' →
      st'.errs = st.errs := by
  induction svcs with
  | nil =>
      intro st st' h
      simp only [List.foldlM, pure, Except.pure] at h
      cases h; rfl
  | cons s rest ih =>
      intro st st' h
      rw [List.foldlM_cons] at h
      cases hm : mergeSvc cl st s with
      | error e => rw [hm, exbind_error] at h; exact absurd h (by simp)
      | ok st₁ =>
          rw [hm, exbind_ok] at h
          rw [ih st₁ st' h, mergeSvc_errs cl st s st₁ hm]

theorem mergeReg_errs (st : MergeState) (r : Registry) (st' : MergeState)
    (h : mergeReg st r = .ok st') :
    st'.errs =
      (match r.services with
       | .error e => multiAppend st.errs e
       | .ok _ => st.errs) := by
  unfold mergeReg at h
  cases hs : r.services with
  | error e => simp only [hs] at h; cases h; rfl
  | ok svcs =>
      simp only [hs] at h
      by_cases hc : r.cluster = ""
      · rw [if_pos hc] at h; cases h; rfl
      · rw [if_neg hc] at h
        exact foldlM_mergeSvc_errs r.cluster svcs st st' h

theorem foldlM_mergeReg_errs (rs : List Registry) :
    ∀ (st st' : MergeState), List.foldlM mergeReg st rs = .ok st' →
      st'.errs = collectSvcErrs rs st.errs := by
  induction rs with
  | nil =>
      intro st st' h
      simp only [List.foldlM, pure, Except.pure] at h
      cases h; rfl
  | cons r rest ih =>
      intro st st' h
      rw [List.foldlM_cons] at h
      cases hr : mergeReg st r with
      | error e => rw [hr, exbind_error] at h; exact absurd h (by simp)
      | ok st₁ =>
          rw [hr, exbind_ok] at h
          have he := mergeReg_errs st r st₁ hr
          rw [ih st₁ st' h]
          simp only [collectSvcErrs]
          cases hs : r.services with
          | error e =>
              rw [hs] at he
              rw [he]
          | ok svcs =>
              rw [hs] at he
              rw [he]

theorem fastGetService_some_none (hn : String) :
    ∀ (rs : List Registry) (errs₀ : Option (List String)) (s : Service)
      (errs : Option (List String)),
      fastGetService hn rs errs₀ = (some s, errs) → errs = none := by
  intro rs
  induction rs with
  | nil =>
      intro errs₀ s errs h
      simp [fastGetService] at h
  | cons r rest ih =>
      intro errs₀ s errs h
      unfold fastGetService at h
      cases hg : r.getService hn with
      | error e => simp only [hg] at h; exact ih _ s errs h
      | ok o =>
          cases o with
          | none => simp only [hg] at h; exact ih _ s errs h
          | some s₀ => simp only [hg] at h; cases h; rfl

/-- The errors collected from the members' `GetService` responses for one
hostname. -/
def collectGSErrs (hn : String) : List Registry → Option (List String) →
    Option (List String)
  | [], errs => errs
  | r :: rest, errs =>
      match r.getService hn with
      | .error e => collectGSErrs hn rest (multiAppend errs e)
      | .ok _ => collectGSErrs hn rest errs

theorem mergeGetService_errs_scoped (hn : String) :
    ∀ (rs : List Registry) (out : Option Service) (errs : Option (List String))
      (o : Option Service) (e : Option (List String)),
      (∀ r ∈ rs, r.cluster ≠ "") →
      mergeGetService hn rs out errs = .ok (o, e) →
      e = collectGSErrs hn rs errs := by
  intro rs
  induction rs with
  | nil =>
      intro out errs o e _ h
      simp only [mergeGetService] at h
      cases h; rfl
  | cons r rest ih =>
      intro out errs o e hcl h
      have hcl' : ∀ r' ∈ rest, r'.cluster ≠ "" := fun r' hr' => hcl r' (by simp [hr'])
      unfold mergeGetService at h
      simp only [collectGSErrs]
      cases hg : r.getService hn with
      | error er => simp only [hg] at h; exact ih _ _ o e hcl' h
      | ok os =>
          cases os with
          | none => simp only [hg] at h; exact ih _ _ o e hcl' h
          | some s =>
              simp only [hg] at h
              rw [if_neg (hcl r (by simp))] at h
              cases out with
              | none => exact ih _ _ o e hcl' h
              | some o₀ =>
                  cases hm : mergeOne r.cluster s o₀ with
                  | error er =>
                      simp only [hm, exbind_error] at h
                      exact absurd h (by simp)
                  | ok o' =>
                      simp only [hm, exbind_ok] at h
                      exact ih _ _ o e hcl' h

/-- C3 counterexample base: a fast-path controller with one succeeding member
(non-empty list) and one failing member. -/
def svcErrCtrl : Controller :=
  { numK8SRegistries := 1,
    registries :=
      [{ sampleRegistry "c1" with services := .ok [plainSvc "10.0.0.1"] },
       { sampleRegistry "" with services := .error "backend down" }] }

/-- C3 counterexample: one member contributed a non-empty service list while
another errored, yet `Services` returns the aggregated error (non-nil)
alongside the partial result, refuting the claim that the error is discarded. -/
theorem C3_counterexample :
    Services svcErrCtrl = Except.ok ([plainSvc "10.0.0.1"], some ["backend down"]) ∧
    some ["backend down"] ≠ (none : Option (List String)) := by
  exact ⟨rfl, by simp⟩

/-- C3 amended: `Services` never discards the aggregated error — the returned
error always equals the errors collected from the failing members, even when
usable results exist; `GetService` returns a nil error exactly on its
early-return hits (any non-nil hit when at most one cluster-scoped member is
present, and a non-cluster-scoped hit in merge mode), while its cluster-scoped
merge accumulation likewise returns the collected aggregated error. -/
theorem C3_error_masking_amended :
    (∀ (c : Controller) (out : List Service) (errs : Option (List String)),
        Services c = .ok (out, errs) → errs = collectSvcErrs c.registries none) ∧
    (∀ (c : Controller) (hn : String) (s : Service) (errs : Option (List String)),
        c.numK8SRegistries ≤ 1 → GetService c hn = .ok (some s, errs) → errs = none) ∧
    (∀ (c : Controller) (hn : String) (o : Option Service) (errs : Option (List String)),
        ¬c.numK8SRegistries ≤ 1 → (∀ r ∈ c.registries, r.cluster ≠ "") →
        GetService c hn = .ok (o, errs) → errs = collectGSErrs hn c.registries none) := by
  refine ⟨fun c out errs h => ?_, fun c hn s errs hle h => ?_, fun c hn o errs hgt hcl h => ?_⟩
  · unfold Services at h
    by_cases hle : c.numK8SRegistries ≤ 1
    · rw [if_pos hle, fastServices_spec] at h
      cases h; rfl
    · rw [if_neg hle] at h
      cases hf : List.foldlM mergeReg { smap := [], entries := [], errs := none } c.registries with
      | error e =>
          simp only [hf] at h
          exact absurd h (by simp)
      | ok st =>
          simp only [hf] at h
          cases h
          exact foldlM_mergeReg_errs c.registries _ st hf
  · unfold GetService at h
    rw [if_pos hle] at h
    cases hfast : fastGetService hn c.registries none with
    | mk o' e' =>
        rw [hfast] at h
        cases h
        exact fastGetService_some_none hn c.registries none s errs (by rw [hfast])
  · unfold GetService at h
    rw [if_neg hgt] at h
    exact mergeGetService_errs_scoped hn c.registries none none o errs hcl h

/-- Witness for C3 amended at concrete inputs: the fast-path mixed
success/error controller, a single-member fast `GetService` hit, and a
two-cluster `GetService` scan with one failing member. -/
theorem C3_error_masking_amended_witness :
    (some ["backend down"] = collectSvcErrs svcErrCtrl.registries none) ∧
    ((none : Option (List String)) = none) ∧
    (some ["gs down"] = collectGSErrs "h"
        [gsReg1, { sampleRegistry "c2" with getService := fun _ => .error "gs down" }] none) :=
  ⟨C3_error_masking_amended.1 svcErrCtrl [plainSvc "10.0.0.1"] (some ["backend down"]) rfl,
   C3_error_masking_amended.2.1
     { numK8SRegistries := 1, registries := [gsReg1] } "h" (plainSvc "10.0.0.1") none
     (by decide) rfl,
   C3_error_masking_amended.2.2
     { numK8SRegistries := 2,
       registries := [gsReg1, { sampleRegistry "c2" with getService := fun _ => .error "gs down" }] }
     "h" (some (plainSvc "10.0.0.1")) (some ["gs down"]) (by decide) (by decide) rfl⟩

/-- C10 base: the first cluster-scoped member's service has a nil
ClusterExternalAddresses map, the second member's service (same hostname) has
a non-nil one. -/
def svcNilCEA : Service := plainSvc "10.0.0.1"

def svcSomeCEA : Service :=
  { plainSvc "10.0.0.2" with
    attributes := { clusterExternalAddresses := some [("c2", ["1.1.1.1"])],
                    clusterExternalPorts := none } }

def nilMapCtrl : Controller :=
  { numK8SRegistries := 2,
    registries :=
      [{ sampleRegistry "c1" with services := .ok [svcNilCEA] },
       { sampleRegistry "c2" with services := .ok [svcSomeCEA] }] }

def nilMapGSCtrl : Controller :=
  { numK8SRegistries := 2,
    registries :=
      [{ sampleRegistry "c1" with getService := fun _ => .ok (some svcNilCEA) },
       { sampleRegistry "c2" with getService := fun _ => .ok (some svcSomeCEA) }] }

/-- C10: when the first-sighted cluster-scoped service has a nil
ClusterExternalAddresses map and a later cluster-scoped service for the same
hostname has a non-nil one, the merge writes into the canonical copy's nil map
(the guard tests only the source map) and both `Services` and `GetService`
panic instead of completing normally. -/
theorem C10_nil_map_merge_panic :
    Services nilMapCtrl = .error () ∧ GetService nilMapGSCtrl "h" = .error () := by
  exact ⟨rfl, rfl⟩

/-- C6: the cluster-affinity pre-filter of `GetProxyServiceInstances` skips a
member registry if and only if, after remapping a registry cluster identifier
equal to the default ambiguous value "Kubernetes" to the configured self
cluster identifier, both the proxy's cluster identifier and the (possibly
remapped) registry cluster identifier are non-empty and differ; if either is
empty the member is not skipped. -/
theorem C6_cluster_affinity_skip_iff (nodeID registryID selfID : String) :
    skipSearchingRegistryForProxy nodeID registryID selfID = true ↔
      ((if registryID = kubernetesProviderID then selfID else registryID) ≠ "" ∧
       nodeID ≠ "" ∧
       (if registryID = kubernetesProviderID then selfID else registryID) ≠ nodeID) := by
  simp only [skipSearchingRegistryForProxy]
  by_cases h1 : (if registryID = kubernetesProviderID then selfID else registryID) = ""
  · simp [h1]
  · by_cases h2 : nodeID = ""
    · simp [h1, h2]
    · simp [h1, h2]

/-- C8: after every completed `AddRegistry` and every completed
`DeleteRegistry` (including a delete of an unknown cluster identifier or on an
empty set, which leaves the member sequence unchanged), the cached
cluster-scoped count equals the number of members with a non-empty cluster
identifier, recomputed by a full scan. -/
theorem C8_registry_set_count_invariant :
    (NewController.numK8SRegistries = countK8SClusters NewController.registries) ∧
    (∀ (c : Controller) (r : Registry),
        (AddRegistry c r).numK8SRegistries = countK8SClusters (AddRegistry c r).registries) ∧
    (∀ (c : Controller) (clusterID : String),
        c.numK8SRegistries = countK8SClusters c.registries →
        (DeleteRegistry c clusterID).numK8SRegistries =
          countK8SClusters (DeleteRegistry c clusterID).registries) ∧
    (∀ (c : Controller) (clusterID : String),
        GetRegistryIndex c.registries clusterID = none →
        DeleteRegistry c clusterID = c) := by
  refine ⟨rfl, fun c r => rfl, fun c clusterID h => ?_, fun c clusterID h => ?_⟩
  · unfold DeleteRegistry
    split
    · exact h
    · split
      · exact h
      · rfl
  · unfold DeleteRegistry
    split
    · rfl
    · simp [h]

/-- Witness for C8 at concrete inputs. -/
theorem C8_registry_set_count_invariant_witness :
    ((DeleteRegistry (AddRegistry NewController (sampleRegistry "c1")) "c1").numK8SRegistries =
      countK8SClusters
        (DeleteRegistry (AddRegistry NewController (sampleRegistry "c1")) "c1").registries) ∧
    DeleteRegistry (AddRegistry NewController (sampleRegistry "c1")) "zz" =
      AddRegistry NewController (sampleRegistry "c1") :=
  ⟨C8_registry_set_count_invariant.2.2.1 (AddRegistry NewController (sampleRegistry "c1")) "c1" rfl,
   C8_registry_set_count_invariant.2.2.2 (AddRegistry NewController (sampleRegistry "c1")) "zz" rfl⟩

/-- C7: `AppendServiceHandler` (and `AppendInstanceHandler`) fails fast: with
three members where the second registration fails, the handler is registered
with the first member only, the second member's error is returned verbatim,
the third member is never contacted; when every member succeeds the call
returns nil. -/
theorem C7_append_handlers_fail_fast :
    (∀ (n : Nat) (r1 r2 r3 : Registry) (e : String),
        r1.appendServiceHandler = .ok () →
        r2.appendServiceHandler = .error e →
        AppendServiceHandler { numK8SRegistries := n, registries := [r1, r2, r3] } =
          ([0, 1], [0], some e)) ∧
    (∀ (n : Nat) (r1 r2 r3 : Registry) (e : String),
        r1.appendInstanceHandler = .ok () →
        r2.appendInstanceHandler = .error e →
        AppendInstanceHandler { numK8SRegistries := n, registries := [r1, r2, r3] } =
          ([0, 1], [0], some e)) ∧
    (∀ c : Controller, (∀ r ∈ c.registries, r.appendServiceHandler = .ok ()) →
        (AppendServiceHandler c).2.2 = none) ∧
    (∀ c : Controller, (∀ r ∈ c.registries, r.appendInstanceHandler = .ok ()) →
        (AppendInstanceHandler c).2.2 = none) := by
  refine ⟨fun n r1 r2 r3 e h1 h2 => ?_, fun n r1 r2 r3 e h1 h2 => ?_,
    fun c h => ?_, fun c h => ?_⟩
  · simp [AppendServiceHandler, appendHandlersLoop, h1, h2]
  · simp [AppendInstanceHandler, appendHandlersLoop, h1, h2]
  · exact appendHandlersLoop_all_ok _ 0 (by
      intro x hx
      rcases List.mem_map.mp hx with ⟨r, hr, hxr⟩
      rw [← hxr]; exact h r hr)
  · exact appendHandlersLoop_all_ok _ 0 (by
      intro x hx
      rcases List.mem_map.mp hx with ⟨r, hr, hxr⟩
      rw [← hxr]; exact h r hr)

/-- Witness for C7 at concrete inputs. -/
theorem C7_append_handlers_fail_fast_witness :
    (AppendServiceHandler
        { numK8SRegistries := 0,
          registries := [sampleRegistry "a", failingHandlerRegistry "b" "boom", sampleRegistry "c"] } =
      ([0, 1], [0], some "boom")) ∧
    (AppendInstanceHandler
        { numK8SRegistries := 0,
          registries := [sampleRegistry "a", failingHandlerRegistry "b" "boom", sampleRegistry "c"] } =
      ([0, 1], [0], some "boom")) ∧
    ((AppendServiceHandler
        { numK8SRegistries := 0, registries := [sampleRegistry "a", sampleRegistry "b"] }).2.2 =
      none) ∧
    ((AppendInstanceHandler
        { numK8SRegistries := 0, registries := [sampleRegistry "a", sampleRegistry "b"] }).2.2 =
      none) :=
  ⟨C7_append_handlers_fail_fast.1 0 _ _ _ "boom" rfl rfl,
   C7_append_handlers_fail_fast.2.1 0 _ _ _ "boom" rfl rfl,
   C7_append_handlers_fail_fast.2.2.1 _ (by
      intro r hr
      simp only [List.mem_cons, List.not_mem_nil, or_false] at hr
      rcases hr with h | h <;> rw [h] <;> rfl),
   C7_append_handlers_fail_fast.2.2.2 _ (by
      intro r hr
      simp only [List.mem_cons, List.not_mem_nil, or_false] at hr
      rcases hr with h | h <;> rw [h] <;> rfl)⟩

/-!
Heap model for the aliasing claims: the same merge passes, with `model.Service`
objects living at explicit heap locations.  `DeepCopy` allocates a fresh
location; a non-cluster-scoped registry's services enter the output by
location (aliased), while canonical copies are freshly allocated.  Mutating a
backend's original object after the pass is a heap write at its location.
-/

structure Heap where
  cells : List Service
  deriving Repr

/-- Dereference a location. -/
def Heap.read (H : Heap) (l : Nat) : Service := H.cells.getD l emptyService

/-- Overwrite the object at a location (mutation of the object it holds). -/
def Heap.write (H : Heap) (l : Nat) (s : Service) : Heap := ⟨H.cells.set l s⟩

/-- A member registry in the heap model: its methods yield locations of the
service objects it owns. -/
structure RegistryH where
  cluster : String
  services : Except String (List Nat)
  getService : String → Except String (Option Nat)

structure MergeStateH where
  heap : Heap
  smap : List (String × Nat)
  out : List Nat
  errs : Option (List String)
  deriving Repr

/-- Heap-model inner loop of the `Services` merge pass: first sighting
allocates a fresh location for the deep copy (then the merge window mutates
it); a later sighting mutates the existing canonical location in place. -/
def mergeSvcH (cl : String) (st : MergeStateH) (l : Nat) : Except Unit MergeStateH :=
  let s := st.heap.read l
  match mapLookup st.smap s.hostname with
  | none =>
      let lc := st.heap.cells.length
      match mergeOne cl s s with
      | .error e => .error e
      | .ok sp' =>
          .ok { heap := (Heap.mk (st.heap.cells ++ [s])).write lc sp',
                smap := mapInsert st.smap s.hostname lc,
                out := st.out ++ [lc], errs := st.errs }
  | some lc =>
      match mergeOne cl s (st.heap.read lc) with
      | .error e => .error e
      | .ok sp' => .ok { st with heap := st.heap.write lc sp' }

/-- Heap-model per-registry body of the `Services` merge pass; a
non-cluster-scoped registry's service locations are appended aliased. -/
def mergeRegH (st : MergeStateH) (r : RegistryH) : Except Unit MergeStateH :=
  match r.services with
  | .error e => .ok { st with errs := multiAppend st.errs e }
  | .ok ls =>
      if r.cluster = "" then .ok { st with out := st.out ++ ls }
      else List.foldlM (mergeSvcH r.cluster) st ls

/-- Heap-model fast path of `Services` (aliased concatenation). -/
def fastServicesH : List RegistryH → MergeStateH → MergeStateH
  | [], st => st
  | r :: rest, st =>
      match r.services with
      | .error e => fastServicesH rest { st with errs := multiAppend st.errs e }
      | .ok ls => fastServicesH rest { st with out := st.out ++ ls }

/-- Heap-model `Controller.Services`. -/
def ServicesH (numK8S : Nat) (rs : List RegistryH) (H : Heap) : Except Unit MergeStateH :=
  if numK8S ≤ 1 then
    .ok (fastServicesH rs { heap := H, smap := [], out := [], errs := none })
  else
    List.foldlM mergeRegH { heap := H, smap := [], out := [], errs := none } rs

/-- Heap-model fast path of `GetService` (first hit returned aliased). -/
def fastGetServiceH (hn : String) :
    List RegistryH → Heap → Option (List String) → Heap × Option Nat × Option (List String)
  | [], H, errs => (H, none, errs)
  | r :: rest, H, errs =>
      match r.getService hn with
      | .error e => fastGetServiceH hn rest H (multiAppend errs e)
      | .ok none => fastGetServiceH hn rest H errs
      | .ok (some l) => (H, some l, none)

/-- Heap-model merge path of `GetService`: the first cluster-scoped hit is
deep-copied to a fresh location; later hits mutate it in place; a
non-cluster-scoped hit is returned aliased. -/
def mergeGetServiceH (hn : String) :
    List RegistryH → Heap → Option Nat → Option (List String) →
    Except Unit (Heap × Option Nat × Option (List String))
  | [], H, out, errs => .ok (H, out, errs)
  | r :: rest, H, out, errs =>
      match r.getService hn with
      | .error e => mergeGetServiceH hn rest H out (multiAppend errs e)
      | .ok none => mergeGetServiceH hn rest H out errs
      | .ok (some l) =>
          if r.cluster = "" then .ok (H, some l, none)
          else
            match out with
            | none =>
                mergeGetServiceH hn rest (Heap.mk (H.cells ++ [H.read l]))
                  (some H.cells.length) errs
            | some lo =>
                match mergeOne r.cluster (H.read l) (H.read lo) with
                | .error e => .error e
                | .ok o' => mergeGetServiceH hn rest (H.write lo o') (some lo) errs

/-- Heap-model `Controller.GetService`. -/
def GetServiceH (numK8S : Nat) (rs : List RegistryH) (H : Heap) (hn : String) :
    Except Unit (Heap × Option Nat × Option (List String)) :=
  if numK8S ≤ 1 then .ok (fastGetServiceH hn rs H none)
  else mergeGetServiceH hn rs H none none

/-- All service locations reported by the member registries. -/
def allSvcLocs : List RegistryH → List Nat
  | [] => []
  | r :: rest =>
      (match r.services with | .ok ls => ls | .error _ => []) ++ allSvcLocs rest

/-- All service locations returned by the members' `GetService` for a
hostname. -/
def allGSLocs (hn : String) : List RegistryH → List Nat
  | [] => []
  | r :: rest =>
      (match r.getService hn with | .ok (some l) => [l] | .ok none => [] | .error _ => []) ++
        allGSLocs hn rest

theorem getD_set_ne (xs : List Service) (i j : Nat) (v d : Service) (h : i ≠ j) :
    (xs.set i v).getD j d = xs.getD j d := by
  induction xs generalizing i j with
  | nil => simp
  | cons x rest ih =>
      cases i with
      | zero =>
          cases j with
          | zero => exact absurd rfl h
          | succ j' => simp [List.set, List.getD]
      | succ i' =>
          cases j with
          | zero => simp [List.set, List.getD]
          | succ j' =>
              simp only [List.set, List.getD_cons_succ]
              exact ih i' j' (fun hh => h (by rw [hh]))

/-- Writing at one location does not change the object read at another. -/
theorem heap_write_read_ne (H : Heap) (l lc : Nat) (v : Service) (h : l ≠ lc) :
    (H.write l v).read lc = H.read lc :=
  getD_set_ne H.cells l lc v emptyService h

theorem mem_mapInsert {α : Type} (m : List (String × α)) (k : String) (v : α)
    (p : String × α) (h : p ∈ mapInsert m k v) : p ∈ m ∨ p = (k, v) := by
  induction m with
  | nil => simp [mapInsert] at h; simp [h]
  | cons q rest ih =>
      obtain ⟨k2, v2⟩ := q
      by_cases h2 : k2 = k
      · simp only [mapInsert, h2, if_true] at h
        rcases List.mem_cons.mp h with h3 | h3
        · right; rw [h3]
        · left; simp [h3]
      · simp only [mapInsert, h2, if_false] at h
        rcases List.mem_cons.mp h with h3 | h3
        · left; simp [h3]
        · rcases ih h3 with h4 | h4
          · left; simp [h4]
          · right; exact h4

/-- The merge-pass invariant: the heap never shrinks, and every canonical
location in `smap` is at or above the pass's starting allocation frontier. -/
def FreshInv (n₀ : Nat) (st : MergeStateH) : Prop :=
  n₀ ≤ st.heap.cells.length ∧ ∀ p ∈ st.smap, n₀ ≤ p.2

theorem mergeSvcH_inv (n₀ : Nat) (cl : String) (st : MergeStateH) (l : Nat)
    (st' : MergeStateH) (h : mergeSvcH cl st l = .ok st') (hinv : FreshInv n₀ st) :
    FreshInv n₀ st' := by
  obtain ⟨hlen, hsmap⟩ := hinv
  unfold mergeSvcH at h
  cases hl : mapLookup st.smap (st.heap.read l).hostname with
  | none =>
      simp only [hl] at h
      cases hm : mergeOne cl (st.heap.read l) (st.heap.read l) with
      | error e =>
          simp only [hm] at h
          exact absurd h (by simp)
      | ok sp' =>
          simp only [hm] at h
          cases h
          constructor
          · simp only [Heap.write, List.length_set, List.length_append]
            omega
          · intro p hp
            rcases mem_mapInsert st.smap (st.heap.read l).hostname st.heap.cells.length p hp
              with h2 | h2
            · exact hsmap p h2
            · rw [h2]; exact hlen
  | some lc =>
      simp only [hl] at h
      cases hm : mergeOne cl (st.heap.read l) (st.heap.read lc) with
      | error e =>
          simp only [hm] at h
          exact absurd h (by simp)
      | ok sp' =>
          simp only [hm] at h
          cases h
          exact ⟨by simpa [Heap.write, List.length_set] using hlen, hsmap⟩

theorem foldlM_mergeSvcH_inv (n₀ : Nat) (cl : String) (ls : List Nat) :
    ∀ (st st' : MergeStateH), List.foldlM (mergeSvcH cl) st ls = .ok st' →
      FreshInv n₀ st → FreshInv n₀ st' := by
  induction ls with
  | nil =>
      intro st st' h hinv
      simp only [List.foldlM, pure, Except.pure] at h
      cases h; exact hinv
  | cons l rest ih =>
      intro st st' h hinv
      rw [List.foldlM_cons] at h
      cases hm : mergeSvcH cl st l with
      | error e => rw [hm, exbind_error] at h; exact absurd h (by simp)
      | ok st₁ =>
          rw [hm, exbind_ok] at h
          exact ih st₁ st' h (mergeSvcH_inv n₀ cl st l st₁ hm hinv)

theorem mergeRegH_inv (n₀ : Nat) (st : MergeStateH) (r : RegistryH) (st' : MergeStateH)
    (h : mergeRegH st r = .ok st') (hinv : FreshInv n₀ st) : FreshInv n₀ st' := by
  unfold mergeRegH at h
  cases hs : r.services with
  | error e => simp only [hs] at h; cases h; exact hinv
  | ok ls =>
      simp only [hs] at h
      by_cases hc : r.cluster = ""
      · rw [if_pos hc] at h; cases h; exact hinv
      · rw [if_neg hc] at h
        exact foldlM_mergeSvcH_inv n₀ r.cluster ls st st' h hinv

theorem foldlM_mergeRegH_inv (n₀ : Nat) (rs : List RegistryH) :
    ∀ (st st' : MergeStateH), List.foldlM mergeRegH st rs = .ok st' →
      FreshInv n₀ st → FreshInv n₀ st' := by
  induction rs with
  | nil =>
      intro st st' h hinv
      simp only [List.foldlM, pure, Except.pure] at h
      cases h; exact hinv
  | cons r rest ih =>
      intro st st' h hinv
      rw [List.foldlM_cons] at h
      cases hr : mergeRegH st r with
      | error e => rw [hr, exbind_error] at h; exact absurd h (by simp)
      | ok st₁ =>
          rw [hr, exbind_ok] at h
          exact ih st₁ st' h (mergeRegH_inv n₀ st r st₁ hr hinv)

theorem mapLookup_mem {α : Type} (m : List (String × α)) (k : String) (v : α)
    (h : mapLookup m k = some v) : (k, v) ∈ m := by
  induction m with
  | nil => simp [mapLookup] at h
  | cons p rest ih =>
      obtain ⟨k2, v2⟩ := p
      by_cases h2 : k2 = k
      · subst h2
        simp [mapLookup] at h
        subst h
        simp
      · simp only [mapLookup, h2, if_false] at h
        exact List.mem_cons.mpr (Or.inr (ih h))

theorem mergeGetServiceH_fresh (hn : String) (n₀ : Nat) :
    ∀ (rs : List RegistryH) (H : Heap) (out : Option Nat) (errs : Option (List String))
      (H' : Heap) (o' : Option Nat) (errs' : Option (List String)),
    (∀ r ∈ rs, r.cluster ≠ "") →
    n₀ ≤ H.cells.length →
    (∀ lo, out = some lo → n₀ ≤ lo) →
    mergeGetServiceH hn rs H out errs = .ok (H', o', errs') →
    n₀ ≤ H'.cells.length ∧ ∀ lo, o' = some lo → n₀ ≤ lo := by
  intro rs
  induction rs with
  | nil =>
      intro H out errs H' o' errs' _ hlen hout h
      simp only [mergeGetServiceH] at h
      cases h
      exact ⟨hlen, hout⟩
  | cons r rest ih =>
      intro H out errs H' o' errs' hcl hlen hout h
      have hcl' : ∀ r' ∈ rest, r'.cluster ≠ "" := fun r' hr' => hcl r' (by simp [hr'])
      unfold mergeGetServiceH at h
      cases hg : r.getService hn with
      | error e => simp only [hg] at h; exact ih H out _ H' o' errs' hcl' hlen hout h
      | ok os =>
          cases os with
          | none => simp only [hg] at h; exact ih H out _ H' o' errs' hcl' hlen hout h
          | some l =>
              simp only [hg] at h
              rw [if_neg (hcl r (by simp))] at h
              cases out with
              | none =>
                  refine ih _ _ _ H' o' errs' hcl' ?_ ?_ h
                  · simp only [List.length_append, List.length_cons, List.length_nil]
                    omega
                  · intro lo hlo
                    cases hlo
                    exact hlen
              | some lo =>
                  cases hm : mergeOne r.cluster (H.read l) (H.read lo) with
                  | error e =>
                      simp only [hm] at h
                      exact absurd h (by simp)
                  | ok o₁ =>
                      simp only [hm] at h
                      refine ih _ _ _ H' o' errs' hcl' ?_ hout h
                      simpa [Heap.write, List.length_set] using hlen

/-- C5: deep-copy isolation of the merged output.  In a merge pass (more than
one cluster-scoped member), every canonical record lives at a location
allocated during the pass, so overwriting any input member's original service
object afterwards leaves the canonical record unchanged — for `Services`
(canonical = any `smap` entry) and for the all-cluster-scoped `GetService`
scan (canonical = the returned location). -/
theorem C5_deep_copy_isolation :
    (∀ (numK8S : Nat) (rs : List RegistryH) (H : Heap) (st' : MergeStateH),
      ¬numK8S ≤ 1 →
      (∀ l ∈ allSvcLocs rs, l < H.cells.length) →
      ServicesH numK8S rs H = .ok st' →
      ∀ (hn : String) (lc : Nat), mapLookup st'.smap hn = some lc →
      ∀ l ∈ allSvcLocs rs, ∀ v : Service,
        (st'.heap.write l v).read lc = st'.heap.read lc) ∧
    (∀ (numK8S : Nat) (rs : List RegistryH) (H H' : Heap) (lc : Nat)
       (errs : Option (List String)) (hn : String),
      ¬numK8S ≤ 1 →
      "" ∉ rs.map (fun r => r.cluster) →
      (∀ l ∈ allGSLocs hn rs, l < H.cells.length) →
      GetServiceH numK8S rs H hn = .ok (H', some lc, errs) →
      ∀ l ∈ allGSLocs hn rs, ∀ v : Service,
        (H'.write l v).read lc = H'.read lc) := by
  constructor
  · intro numK8S rs H st' hnum hvalid hrun hn lc hlc l hl v
    unfold ServicesH at hrun
    rw [if_neg hnum] at hrun
    have hinv : FreshInv H.cells.length st' :=
      foldlM_mergeRegH_inv H.cells.length rs _ st' hrun
        ⟨Nat.le_refl _, by intro p hp; simp at hp⟩
    have hfresh : H.cells.length ≤ lc := hinv.2 (hn, lc) (mapLookup_mem st'.smap hn lc hlc)
    have hlt : l < H.cells.length := hvalid l hl
    exact heap_write_read_ne st'.heap l lc v (by omega)
  · intro numK8S rs H H' lc errs hn hnum hscoped hvalid hrun l hl v
    unfold GetServiceH at hrun
    rw [if_neg hnum] at hrun
    have hcl : ∀ r ∈ rs, r.cluster ≠ "" := by
      intro r hr hc
      exact hscoped (List.mem_map.mpr ⟨r, hr, hc⟩)
    have hfresh := mergeGetServiceH_fresh hn H.cells.length rs H none none H' (some lc) errs
      hcl (Nat.le_refl _) (by intro lo hlo; cases hlo) hrun
    have hlt : l < H.cells.length := hvalid l hl
    exact heap_write_read_ne H' l lc v (by have := hfresh.2 lc rfl; omega)

def c5reg1 : RegistryH := { cluster := "c1", services := .ok [0], getService := fun _ => .ok none }

def c5reg2 : RegistryH := { cluster := "c2", services := .ok [1], getService := fun _ => .ok none }

def c5heap : Heap := ⟨[plainSvc "10.0.0.1", plainSvc "10.0.0.2"]⟩

def c5stateA : MergeStateH :=
  match ServicesH 2 [c5reg1, c5reg2] c5heap with
  | .ok st => st
  | .error _ => { heap := ⟨[]⟩, smap := [], out := [], errs := none }

def c5regB1 : RegistryH := { cluster := "c1", services := .ok [], getService := fun _ => .ok (some 0) }

def c5regB2 : RegistryH := { cluster := "c2", services := .ok [], getService := fun _ => .ok (some 1) }

def c5heapB : Heap :=
  match GetServiceH 2 [c5regB1, c5regB2] c5heap "h" with
  | .ok (H, _, _) => H
  | .error _ => ⟨[]⟩

/-- Witness for C5 at a concrete two-cluster merge: overwriting the first
registry's original service object does not change the canonical record. -/
theorem C5_deep_copy_isolation_witness :
    ((c5stateA.heap.write 0 emptyService).read 2 = c5stateA.heap.read 2) ∧
    ((c5heapB.write 1 emptyService).read 2 = c5heapB.read 2) :=
  ⟨C5_deep_copy_isolation.1 2 [c5reg1, c5reg2] c5heap c5stateA (by decide) (by decide)
      rfl "h" 2 (by decide) 0 (by decide) emptyService,
   C5_deep_copy_isolation.2 2 [c5regB1, c5regB2] c5heap c5heapB 2 none "h" (by decide)
      (by decide) (by decide) rfl 1 (by decide) emptyService⟩

end Aggregate
